import Mathlib

/-!
Verification development for the cosmetic-filtering core of an ad-blocking
engine (cosmetic rule parser, cosmetic filter cache, scriptlet catalog).

Rust strings are embedded as `List Char`; all inputs exercised by the
theorems are ASCII, where byte offsets and char offsets coincide.  A Rust
function that can panic (out-of-bounds slice, arithmetic underflow on
`usize`, `expect` on `None`) is embedded as an `Option`-returning function,
with `none` denoting the panic.  External collaborators (the CSS selector
validator, the IDNA punycode converter, the `fast_hash` project hash and the
public-suffix lookup) are taken as parameters.
-/

abbrev Str := List Char

def strOf (s : String) : Str := s.data

/-- Rust `str::starts_with` on the char level. -/
def strStarts (l p : Str) : Bool := p.isPrefixOf l

/-- Rust `str::ends_with` on the char level. -/
def strEnds (l p : Str) : Bool := p.isSuffixOf l

/-- Rust slice `l[a..b]` (for in-bounds, well-ordered `a ≤ b ≤ len`). -/
def sliceStr (l : Str) (a b : Nat) : Str := (l.drop a).take (b - a)

/-- The whitespace class used by Rust's `char::is_whitespace` / regex `\s`,
restricted to ASCII (all inputs considered here are ASCII). -/
def rustWs (c : Char) : Bool :=
  c = ' ' || c = '\t' || c = '\n' || c = '\r' || c = Char.ofNat 11 || c = Char.ofNat 12

/-- Rust `str::trim`. -/
def trimStr (l : Str) : Str :=
  ((l.dropWhile rustWs).reverse.dropWhile rustWs).reverse

/-- Index of the first occurrence of `c` in `l` (Rust `str::find(char)`). -/
def idxOf? (l : Str) (c : Char) : Option Nat :=
  match l with
  | [] => none
  | x :: rest => if x = c then some 0 else (idxOf? rest c).map (· + 1)

theorem idxOf?_lt_length {l : Str} {c : Char} {i : Nat} (h : idxOf? l c = some i) :
    i < l.length := by
  induction l generalizing i with
  | nil => simp [idxOf?] at h
  | cons x rest ih =>
    rw [idxOf?] at h
    split at h
    · cases h
      simp
    · cases hr : idxOf? rest c with
      | none => rw [hr] at h; exact Option.noConfusion h
      | some j =>
        rw [hr] at h
        have h2 : j + 1 = i := Option.some.inj h
        have := ih hr
        simp only [List.length_cons]
        omega

/-- Rust `str::split(char)` (keeps empty fields; `"".split(c)` is `[""]`). -/
def splitOnChar (c : Char) (l : Str) : List Str :=
  match l with
  | [] => [[]]
  | x :: rest =>
    if x = c then [] :: splitOnChar c rest
    else
      match splitOnChar c rest with
      | [] => [[x]]
      | f :: fs => (x :: f) :: fs

/-- Join label lists back with dots (inverse of splitting a hostname). -/
def joinDots : List Str → Str
  | [] => []
  | [x] => x
  | x :: rest => x ++ '.' :: joinDots rest

def isAsciiChar (c : Char) : Bool := c.toNat < 128

def strIsAscii (l : Str) : Bool := l.all isAsciiChar

/-- Rust `str::split_whitespace` (no empty fields). -/
def splitWsAux (field : Str) (l : Str) : List Str :=
  match l with
  | [] => if field = [] then [] else [field.reverse]
  | c :: rest =>
    if rustWs c then
      if field = [] then splitWsAux [] rest
      else field.reverse :: splitWsAux [] rest
    else splitWsAux (c :: field) rest

def splitWs (l : Str) : List Str := splitWsAux [] l

/-- Index of the first occurrence of `pat` as a contiguous run in `l`. -/
def findInfixIdx (pat : Str) (l : Str) : Option Nat :=
  match l with
  | [] => if pat = [] then some 0 else none
  | _ :: rest =>
    if strStarts l pat then some 0 else (findInfixIdx pat rest).map (· + 1)

/-- First-match association-list lookup (the observable behavior of the
`HashMap` uses in the source; insertion is modelled by consing, so the most
recent binding for a key wins). -/
def alookup {β : Type} (m : List (Str × β)) (k : Str) : Option β :=
  match m with
  | [] => none
  | (k', v) :: rest => if k' = k then some v else alookup rest k

deriving instance DecidableEq for Except

/-! ## Scriptlet catalog (src/src/scriptlets.rs) -/

inductive ScriptletError where
  | NoMatchingScriptlet
  | MissingScriptletName
  | WrongNumberOfArguments
deriving DecidableEq, Repr

inductive ScriptletPart where
  | Literal (s : Str)
  | Argument (n : Nat)
deriving DecidableEq, Repr

structure Scriptlet where
  parts : List ScriptletPart
  required_args : Nat
deriving DecidableEq, Repr

structure Scriptlets where
  scriptlets : List (Str × Scriptlet)
  aliases : List (Str × Str)
deriving DecidableEq, Repr

/-- The scanning loop of `Scriptlet::parse`: the regex `\x7b\x7b\d\x7d\x7d`
is matched left to right (non-overlapping); text between matches becomes
`Literal` parts (pushed only when non-empty, mirroring the
`last_end_index != cap.start()` checks), each match becomes an `Argument`
part, and the running maximum of the digits is `required_args`. -/
def scriptletScan (lit : Str) : Str → List ScriptletPart × Nat
  | '{' :: '{' :: d :: '}' :: '}' :: rest =>
    if d.isDigit then
      let (ps, req) := scriptletScan [] rest
      ((if lit = [] then [] else [ScriptletPart.Literal lit]) ++
        ScriptletPart.Argument (d.toNat - 48) :: ps,
       max (d.toNat - 48) req)
    else scriptletScan (lit ++ ['{']) ('{' :: d :: '}' :: '}' :: rest)
  | c :: rest => scriptletScan (lit ++ [c]) rest
  | [] => ((if lit = [] then [] else [ScriptletPart.Literal lit]), 0)

def Scriptlet.parse (data : Str) : Scriptlet :=
  let (ps, req) := scriptletScan [] data
  { parts := ps, required_args := req }

/-- `ScriptletPart::patched`: `args[index - 1]`; `none` is the panic on
`index = 0` (usize underflow) or an out-of-range index. -/
def ScriptletPart.patched (p : ScriptletPart) (args : List Str) : Option Str :=
  match p with
  | .Literal l => some l
  | .Argument index =>
    if index = 0 then none
    else args[index - 1]?

/-- The accumulator step of `Scriptlet::patch` (`output_scriptlet += part.patched(args)`,
with `none` propagating a panic of `patched`). -/
def patchStep (args : List Str) (acc : Option Str) (p : ScriptletPart) : Option Str :=
  match acc, p.patched args with
  | some s, some u => some (s ++ u)
  | _, _ => none

/-- `Scriptlet::patch`. -/
def Scriptlet.patch (t : Scriptlet) (args : List Str) :
    Option (Except ScriptletError Str) :=
  if args.length ≠ t.required_args then some (.error .WrongNumberOfArguments)
  else
    match t.parts.foldl (patchStep args) (some []) with
    | none => none
    | some out => some (.ok out)

def without_js_extension (name : Str) : Str :=
  if strEnds name (strOf ".js") then name.take (name.length - 3) else name

/-- The `\\[\\'"]`-erasing cleanup applied to each scriptlet argument. -/
def eraseArgChars (l : Str) : Str :=
  l.filter (fun c => ¬ (c = Char.ofNat 92 || c = Char.ofNat 39 || c = Char.ofNat 34))

/-- The splitting loop of `parse_scriptlet_args`, walking the string one
char at a time while remembering the previous char.  A `,` whose preceding
char in the original string is not `\` closes the current field; the raw
field text (everything since the last closing comma) is trimmed and cleaned.
The trailing field is pushed iff it is non-empty
(`after_last_delim != args.len()`). -/
def argsGo (prev : Char) (field : Str) (acc : List Str) : Str → List Str
  | [] => if field = [] then acc else acc ++ [eraseArgChars (trimStr field)]
  | c :: rest =>
    if c = ',' && prev ≠ Char.ofNat 92 then
      argsGo c [] (acc ++ [eraseArgChars (trimStr field)]) rest
    else argsGo c (field ++ [c]) acc rest

/-- `parse_scriptlet_args`; `none` is the panic reached when the first comma
found sits at index 0 (`args[comma_loc - 1..comma_loc]` underflows). -/
def parse_scriptlet_args (args : Str) : Option (List Str) :=
  match args with
  | [] => some []
  | c :: rest =>
    if c = ',' then none
    else some (argsGo c [c] [] rest)

/-- `Scriptlets::get_scriptlet`. -/
def Scriptlets.get_scriptlet (s : Scriptlets) (scriptlet_args : Str) :
    Option (Except ScriptletError Str) :=
  match parse_scriptlet_args scriptlet_args with
  | none => none
  | some argsv =>
    match argsv with
    | [] => some (.error .MissingScriptletName)
    | first :: args =>
      let scriptlet_name := without_js_extension first
      let actual_name :=
        match alookup s.aliases scriptlet_name with
        | some aliased => aliased
        | none => scriptlet_name
      match alookup s.scriptlets actual_name with
      | none => some (.error .NoMatchingScriptlet)
      | some template => template.patch args

/-- Strip an optional leading block-comment banner: the anchored regex
`/\*[\S\s]+?\n\*/\s*` matched once at the start (the `^` anchor limits
`replace_all` to a single replacement).  The lazy middle takes the earliest
occurrence of the closing newline-`*/` that leaves at least one middle
char. -/
def strip_top_comment (d : Str) : Str :=
  if strStarts d (strOf "/*") then
    match findInfixIdx (strOf "\n*/") (d.drop 3) with
    | some j => (d.drop (3 + j + 3)).dropWhile rustWs
    | none => d
  else d

/-- Rust `str::lines`: split on `\n`, drop a final empty piece, strip one
trailing `\r` from each line. -/
def linesOf (d : Str) : List Str :=
  let ps := splitOnChar '\n' d
  let ps := if ps.getLast? = some [] then ps.dropLast else ps
  ps.map (fun l => if l.getLast? = some '\r' then l.dropLast else l)

def line_is_comment (l : Str) : Bool :=
  strStarts l (strOf "#") || strStarts l (strOf "// ")

/-- The `NON_EMPTY_LINE_RE` (`\S`) test. -/
def has_non_ws (l : Str) : Bool := l.any (fun c => ¬ rustWs c)

/-- Loop state of `Scriptlets::parse_template_file`. -/
structure TemplState where
  name : Option Str
  details : List (Str × Str)
  script : Str
  scriptlets : List (Str × Scriptlet)
  aliases : List (Str × Str)
deriving DecidableEq, Repr

def initTemplState : TemplState := ⟨none, [], [], [], []⟩

/-- One iteration of the line loop of `parse_template_file`.  `none` is the
panic of the two `expect` calls on a `/// prop value` line with fewer than
two whitespace-separated tokens. -/
def templStep (st : TemplState) (line : Str) : Option TemplState :=
  if line_is_comment line then some st
  else
    match st.name with
    | none =>
      if strStarts line (strOf "/// ") then
        some { st with name := some (trimStr (line.drop 4)) }
      else some st
    | some n =>
      if strStarts line (strOf "/// ") then
        match splitWs (line.drop 4) with
        | prop :: value :: _ => some { st with details := (prop, value) :: st.details }
        | _ => none
      else if has_non_ws line then
        some { st with script := st.script ++ trimStr line }
      else
        let s := Scriptlet.parse st.script
        let name' := without_js_extension n
        let aliases' :=
          match alookup st.details (strOf "alias") with
          | some al => (without_js_extension al, name') :: st.aliases
          | none => st.aliases
        some { name := none, details := [], script := [],
               scriptlets := (name', s) :: st.scriptlets, aliases := aliases' }

def templLines (st : TemplState) : List Str → Option TemplState
  | [] => some st
  | l :: ls =>
    match templStep st l with
    | none => none
    | some st' => templLines st' ls

/-- `Scriptlets::parse_template_file`. -/
def Scriptlets.parse_template_file (data : Str) : Option Scriptlets :=
  let uncommented := strip_top_comment data
  match templLines initTemplState (linesOf uncommented) with
  | none => none
  | some st => some ⟨st.scriptlets, st.aliases⟩

/-! ## Cosmetic filter rules (src/src/filters/cosmetic.rs) -/

inductive CosmeticFilterError where
  | PunycodeError
  | InvalidStyleSpecifier
  | UnsupportedSyntax
  | MissingSharp
  | InvalidCssStyle
  | InvalidCssSelector
deriving DecidableEq, Repr

/-- The `CosmeticFilterMask` bitflags, one `Bool` per bit.  `is_simple` is
modelled from the spec: the `IS_SIMPLE` flag is tested by
`cosmetic_filter_cache.rs` but absent from the bitflags in
`filters/cosmetic.rs`; the parser in src never sets it. -/
structure CosmeticFilterMask where
  unhide : Bool
  script_inject : Bool
  is_unicode : Bool
  is_class_selector : Bool
  is_id_selector : Bool
  is_href_selector : Bool
  is_simple : Bool
deriving DecidableEq, Repr

def maskNone : CosmeticFilterMask := ⟨false, false, false, false, false, false, false⟩

/-- The parsed rule.  `key` is modelled from the spec (§3): it is read by
`cosmetic_filter_cache.rs` but absent from the struct in
`filters/cosmetic.rs`; the parser in src never sets it. -/
structure CosmeticFilter where
  entities : Option (List Nat)
  hostnames : Option (List Nat)
  mask : CosmeticFilterMask
  not_entities : Option (List Nat)
  not_hostnames : Option (List Nat)
  raw_line : Option Str
  selector : Str
  style : Option Str
  key : Option Str
deriving DecidableEq, Repr

/-- `is_simple_selector`, iterating `chars().enumerate().skip(1)`.  The
source guard `i < selector.len() - 1` (and the following `nth(i + 1)`) is
rendered by matching on the rest of the list: position `i` is not the last
one exactly when the remainder is non-empty. -/
def is_simple_selector_go : Str → Bool
  | [] => true
  | c :: rest =>
    if c = '-' || c = '_' || ('0' ≤ c && c ≤ '9') || ('A' ≤ c && c ≤ 'Z') ||
        ('a' ≤ c && c ≤ 'z') then
      is_simple_selector_go rest
    else
      match rest with
      | next :: _ =>
        c = '[' || (c = ' ' && (next = '>' || next = '+' || next = '~' || next = '.' ||
          next = '#'))
      | [] => false

def is_simple_selector (selector : Str) : Bool :=
  is_simple_selector_go (selector.drop 1)

def is_simple_href_selector (selector : Str) (start : Nat) : Bool :=
  strStarts (selector.drop start) (strOf "href^=\"") ||
  strStarts (selector.drop start) (strOf "href*=\"") ||
  strStarts (selector.drop start) (strOf "href=\"")

/-- `is_valid_css_style` as in src: always true (marked TODO there). -/
def is_valid_css_style (_style : Str) : Bool := true

/-- Accumulator for the four hostname-hash vectors of the parser. -/
structure HostVecs where
  entities_vec : List Nat
  not_entities_vec : List Nat
  hostnames_vec : List Nat
  not_hostnames_vec : List Nat
  is_unicode : Bool
deriving DecidableEq, Repr

/-- The per-part body of the hostname loop (lines 67-102 of
filters/cosmetic.rs).  `puny` stands for `idna::uts46::to_ascii` with the
fixed flag set; `hashF` for `crate::utils::fast_hash` (both external to
src). -/
def hostLoopStep (puny : Str → Option Str) (hashF : Str → Nat)
    (acc : HostVecs) (part : Str) : Option HostVecs :=
  if strIsAscii part then
    hostStepClassify hashF acc part
  else
    match puny part with
    | some x => hostStepClassify hashF { acc with is_unicode := true } x
    | none => none
where
  hostStepClassify (hashF : Str → Nat) (acc : HostVecs) (hostname : Str) :
      Option HostVecs :=
    let negation := strStarts hostname (strOf "~")
    let entity := strEnds hostname (strOf ".*")
    let start := if negation then 1 else 0
    let stop := if entity then hostname.length - 2 else hostname.length
    let hash := hashF (sliceStr hostname start stop)
    match negation, entity with
    | true, true => some { acc with not_entities_vec := acc.not_entities_vec ++ [hash] }
    | true, false => some { acc with not_hostnames_vec := acc.not_hostnames_vec ++ [hash] }
    | false, true => some { acc with entities_vec := acc.entities_vec ++ [hash] }
    | false, false => some { acc with hostnames_vec := acc.hostnames_vec ++ [hash] }

def hostLoop (puny : Str → Option Str) (hashF : Str → Nat)
    (acc : HostVecs) : List Str → Option HostVecs
  | [] => some acc
  | p :: ps =>
    match hostLoopStep puny hashF acc p with
    | none => none
    | some acc' => hostLoop puny hashF acc' ps

/-- `Vec::sort` (ascending). -/
def sortHashes (v : List Nat) : List Nat := v.insertionSort (· ≤ ·)

def vecToOption (v : List Nat) : Option (List Nat) :=
  if v ≠ [] then some (sortHashes v) else none

/-- The colon-scanning loop (lines 154-179 of filters/cosmetic.rs), walking
`rem = line.drop i` for the next `:`.  On a `:style(` opener the selector
and style are (re)assigned and the scan continues after the colon, exactly
as in the source (which never breaks out of the loop). -/
def scanColons (line : Str) (suffix_start : Nat) :
    Nat → Str → Str → Option Str → Except CosmeticFilterError (Str × Option Str)
  | _, [], sel, sty => .ok (sel, sty)
  | i, c :: rest, sel, sty =>
    if c = ':' then
      if strStarts rest (strOf "style") then
        if line.get? (i + 6) = some '(' && line.get? (line.length - 1) = some ')' then
          scanColons line suffix_start (i + 1) rest
            (sliceStr line suffix_start i)
            (some (sliceStr line (i + 7) (line.length - 1)))
        else .error .InvalidStyleSpecifier
      else if strStarts rest (strOf "-abp-") || strStarts rest (strOf "contains") ||
          strStarts rest (strOf "has") || strStarts rest (strOf "if") ||
          strStarts rest (strOf "if-not") || strStarts rest (strOf "matches-css") ||
          strStarts rest (strOf "matches-css-after") ||
          strStarts rest (strOf "matches-css-before") ||
          strStarts rest (strOf "properties") || strStarts rest (strOf "subject") ||
          strStarts rest (strOf "xpath") then
        .error .UnsupportedSyntax
      else scanColons line suffix_start (i + 1) rest sel sty
    else scanColons line suffix_start (i + 1) rest sel sty

/-- The classification block (lines 194-204 of filters/cosmetic.rs). -/
def classifyMask (mask : CosmeticFilterMask) (selector : Str) : CosmeticFilterMask :=
  if ¬ mask.script_inject then
    if strStarts selector (strOf ".") && is_simple_selector selector then
      { mask with is_class_selector := true }
    else if strStarts selector (strOf "#") && is_simple_selector selector then
      { mask with is_id_selector := true }
    else if strStarts selector (strOf "a[h") && is_simple_href_selector selector 2 then
      { mask with is_href_selector := true }
    else if strStarts selector (strOf "[h") && is_simple_href_selector selector 1 then
      { mask with is_href_selector := true }
    else mask
  else mask

/-- The body-determination block of `CosmeticFilter::parse` (lines 137-180
of filters/cosmetic.rs): the `script:` branch, the `+js(` branch, and the
colon scan, producing the selector, the optional style and the updated
mask.  `none` is the panic of `line[start..end]` with `start > end` in the
`script:inject(` branch. -/
def parseBody (line : Str) (suffix_start_index : Nat) (mask1 : CosmeticFilterMask) :
    Option (Except CosmeticFilterError (Str × Option Str × CosmeticFilterMask)) :=
  if line.length - suffix_start_index > 7 &&
      strStarts (line.drop suffix_start_index) (strOf "script:") then
    if suffix_start_index + 7 +
        (if strStarts (line.drop (suffix_start_index + 7)) (strOf "inject(") then 7
         else 0) > line.length - 1 then none
    else some (.ok
      (sliceStr line
        (suffix_start_index + 7 +
          (if strStarts (line.drop (suffix_start_index + 7)) (strOf "inject(") then 7
           else 0))
        (line.length - 1),
       none,
       if strStarts (line.drop (suffix_start_index + 7)) (strOf "inject(") then
         { mask1 with script_inject := true }
       else mask1))
  else if line.length - suffix_start_index > 4 &&
      strStarts (line.drop suffix_start_index) (strOf "+js(") then
    some (.ok (sliceStr line (suffix_start_index + 4) (line.length - 1),
      none, { mask1 with script_inject := true }))
  else
    match scanColons line suffix_start_index suffix_start_index
        (line.drop suffix_start_index) (line.drop suffix_start_index) none with
    | .error e => some (.error e)
    | .ok (sel, sty) => some (.ok (sel, sty, mask1))

/-- The suffix start index computed by `CosmeticFilter::parse`:
`sharp_index + 2`, plus one more when the byte after `#` is `@` (which also
sets UNHIDE). -/
def suffixStartIdx (line : Str) (sharp_index : Nat) : Nat :=
  sharp_index + 1 + 1 +
    (if strStarts (line.drop (sharp_index + 1)) (strOf "@") then 1 else 0)

/-- The mask accumulated by `CosmeticFilter::parse` before the body is
examined: `UNHIDE` from the `#@#` separator and `IS_UNICODE` from the
hostname loop. -/
def maskBeforeBody (line : Str) (sharp_index : Nat) (hv : HostVecs) :
    CosmeticFilterMask :=
  { maskNone with
    unhide := strStarts (line.drop (sharp_index + 1)) (strOf "@"),
    is_unicode := maskNone.is_unicode || hv.is_unicode }

/-- The tail of `CosmeticFilter::parse` (lines 182-219 of
filters/cosmetic.rs): CSS validation, the unicode re-check on the selector,
classification, and assembly of the rule. -/
def parseFinal (V : Str → Bool) (line : Str) (debug : Bool)
    (entities hostnames not_entities not_hostnames : Option (List Nat))
    (body : Option (Except CosmeticFilterError (Str × Option Str × CosmeticFilterMask))) :
    Option (Except CosmeticFilterError CosmeticFilter) :=
  match body with
  | none => none
  | some (.error e) => some (.error e)
  | some (.ok (selector, style, mask2)) =>
    if ¬ mask2.script_inject && ¬ V selector then
      some (.error .InvalidCssSelector)
    else if style.isSome && ¬ is_valid_css_style (style.getD []) then
      some (.error .InvalidCssStyle)
    else
      some (.ok
        { entities := entities
          hostnames := hostnames
          mask := classifyMask
            (if ¬ strIsAscii selector then { mask2 with is_unicode := true }
             else mask2) selector
          not_entities := not_entities
          not_hostnames := not_hostnames
          raw_line := if debug then some line else none
          selector := selector
          style := style
          key := none })

/-- Stage of `CosmeticFilter::parse` after the hostname loop: the panic
guard for `line[suffix_start_index..]` and the rest of the function. -/
def parseAfterHost (V : Str → Bool) (line : Str) (debug : Bool)
    (sharp_index : Nat) (hv : HostVecs) :
    Option (Except CosmeticFilterError CosmeticFilter) :=
  if suffixStartIdx line sharp_index > line.length then none
  else
    parseFinal V line debug
      (vecToOption hv.entities_vec) (vecToOption hv.hostnames_vec)
      (vecToOption hv.not_entities_vec) (vecToOption hv.not_hostnames_vec)
      (parseBody line (suffixStartIdx line sharp_index)
        (maskBeforeBody line sharp_index hv))

/-- Stage of `CosmeticFilter::parse` once the `#` has been located: the
hostname block (run only when `sharp_index > 0`) and the remainder. -/
def parseWithSharp (V : Str → Bool) (puny : Str → Option Str)
    (hashF : Str → Nat) (line : Str) (debug : Bool) (sharp_index : Nat) :
    Option (Except CosmeticFilterError CosmeticFilter) :=
  match (if sharp_index > 0 then
      hostLoop puny hashF ⟨[], [], [], [], false⟩
        (splitOnChar ',' (line.take sharp_index))
    else some ⟨[], [], [], [], false⟩) with
  | none => some (.error .PunycodeError)
  | some hv => parseAfterHost V line debug sharp_index hv

/-- `CosmeticFilter::parse`.  Parameters: `V` is the external
`is_valid_css_selector`; `puny` the external IDNA converter; `hashF` the
project hash.  `none` is a panic: the slice `line[suffix_start_index..]`
with `suffix_start_index > line.len()` (e.g. on the line `"#"`), or the
slice `line[start..end]` with `start > end` in the `script:inject(`
branch. -/
def CosmeticFilter.parse (V : Str → Bool) (puny : Str → Option Str)
    (hashF : Str → Nat) (line : Str) (debug : Bool) :
    Option (Except CosmeticFilterError CosmeticFilter) :=
  match idxOf? line '#' with
  | none => some (.error .MissingSharp)
  | some sharp_index => parseWithSharp V puny hashF line debug sharp_index

/-! ## Cosmetic filter cache (src/src/cosmetic_filter_cache.rs) -/

/-- `rules_to_stylesheet`: the first rule's selector seeds the combined
selector list unconditionally; each later rule is appended to the selector
list when it has no style and collected for its own line when it has one. -/
def rules_to_stylesheet (rules : List CosmeticFilter) : Str :=
  match rules with
  | [] => []
  | r0 :: rest =>
    let acc := rest.foldl
      (fun (acc : Str × List CosmeticFilter) rule =>
        if rule.style.isSome then (acc.1, acc.2 ++ [rule])
        else (acc.1 ++ ',' :: rule.selector, acc.2))
      (r0.selector, [])
    let stylesheet := acc.1 ++ strOf "\x7bdisplay:none !important;\x7d\n"
    acc.2.foldl
      (fun st rule =>
        st ++ rule.selector ++ strOf " \x7b" ++ rule.style.getD [] ++ strOf "\x7d\n")
      stylesheet

/-- Modelled from the spec (§4.2): `has_hostname_constraint` is called by
the cache but missing from src — a rule is hostname-constrained when any of
the four scope sets is present. -/
def CosmeticFilter.has_hostname_constraint (rule : CosmeticFilter) : Bool :=
  rule.hostnames.isSome || rule.entities.isSome ||
  rule.not_hostnames.isSome || rule.not_entities.isSome

/-- Modelled from the spec (§4.2): sorted-merge intersection test over two
hash lists, rendered by its observable behavior (non-empty overlap). -/
def hasIntersection (a b : List Nat) : Bool := a.any (fun x => b.contains x)

/-- Modelled from the spec (§4.2 step 3): `CosmeticFilter::matches` is
called by the cache but missing from src.  A rule is retained iff every
present positive set intersects the request hashes, every present negative
set is disjoint from them, and at least one positive constraint matched
when positive sets exist. -/
def CosmeticFilter.matches (rule : CosmeticFilter)
    (request_entities request_hostnames : List Nat) : Bool :=
  (match rule.hostnames with
   | none => true
   | some hs => hasIntersection hs request_hostnames) &&
  (match rule.entities with
   | none => true
   | some es => hasIntersection es request_entities) &&
  (match rule.not_hostnames with
   | none => true
   | some hs => ¬ hasIntersection hs request_hostnames) &&
  (match rule.not_entities with
   | none => true
   | some es => ¬ hasIntersection es request_entities) &&
  (if rule.hostnames.isSome || rule.entities.isSome then
    (match rule.hostnames with
     | none => false
     | some hs => hasIntersection hs request_hostnames) ||
    (match rule.entities with
     | none => false
     | some es => hasIntersection es request_entities)
   else true)

/-- Modelled from the spec (§4.2/§9): the dotted suffix label chains of
`hostname` from the full hostname down to the registrable `domain` — every
suffix starting at a label boundary that is at least as long as the
registrable domain. -/
def hostnameSuffixChains (hostname domain : Str) : List Str :=
  let labels := splitOnChar '.' hostname
  (List.range labels.length).filterMap
    (fun i =>
      let s := joinDots (labels.drop i)
      if domain.length ≤ s.length then some s else none)

/-- Modelled from the spec (§4.2): `get_hostname_hashes_from_labels` is
called via `hostname_domain_hashes` but missing from src — the hashes of
all dotted suffix chains of the hostname down to the registrable domain. -/
def get_hostname_hashes_from_labels (hashF : Str → Nat) (hostname domain : Str) :
    List Nat :=
  (hostnameSuffixChains hostname domain).map hashF

/-- Modelled from the spec (§4.2/§9): `get_entity_hashes_from_labels` is
called via `hostname_domain_hashes` but missing from src — strip the
registrable domain's public-suffix tail from the hostname and hash every
dotted suffix chain of the remainder. -/
def get_entity_hashes_from_labels (hashF : Str → Nat) (hostname domain : Str) :
    List Nat :=
  match splitOnChar '.' domain with
  | [] => []
  | _ :: suffixLabels =>
    let tail_len := (joinDots suffixLabels).length + 1
    let stripped := hostname.take (hostname.length - tail_len)
    let labels := splitOnChar '.' stripped
    (List.range labels.length).map (fun i => hashF (joinDots (labels.drop i)))

/-- `hostname_domain_hashes`. -/
def hostname_domain_hashes (hashF : Str → Nat) (hostname domain : Str) :
    List Nat × List Nat :=
  (get_entity_hashes_from_labels hashF hostname domain,
   get_hostname_hashes_from_labels hashF hostname domain)

/-- The cache.  Sets and maps are embedded as lists with their observable
(set / first-match) semantics; `base_stylesheet` is the `RefCell` content. -/
structure CosmeticFilterCache where
  simple_class_rules : List Str
  simple_id_rules : List Str
  complex_class_rules : List (Str × List Str)
  complex_id_rules : List (Str × List Str)
  specific_rules : List CosmeticFilter
  misc_rules : List CosmeticFilter
  base_stylesheet : Option Str
deriving DecidableEq, Repr

def setInsert (s : List Str) (k : Str) : List Str :=
  if s.contains k then s else s ++ [k]

def bucketPush (m : List (Str × List Str)) (k : Str) (sel : Str) :
    List (Str × List Str) :=
  match alookup m k with
  | some bucket => (k, bucket ++ [sel]) :: m
  | none => (k, [sel]) :: m

/-- `CosmeticFilterCache::add_filter`. -/
def CosmeticFilterCache.add_filter (c : CosmeticFilterCache) (rule : CosmeticFilter) :
    CosmeticFilterCache :=
  if rule.mask.script_inject || rule.mask.unhide then c
  else if rule.has_hostname_constraint then
    { c with specific_rules := c.specific_rules ++ [rule] }
  else if rule.mask.is_class_selector then
    match rule.key with
    | some key =>
      if rule.mask.is_simple then
        { c with simple_class_rules := setInsert c.simple_class_rules key }
      else
        { c with complex_class_rules := bucketPush c.complex_class_rules key rule.selector }
    | none => c
  else if rule.mask.is_id_selector then
    match rule.key with
    | some key =>
      if rule.mask.is_simple then
        { c with simple_id_rules := setInsert c.simple_id_rules key }
      else
        { c with complex_id_rules := bucketPush c.complex_id_rules key rule.selector }
    | none => c
  else
    { c with misc_rules := c.misc_rules ++ [rule], base_stylesheet := none }

/-- `CosmeticFilterCache::hostname_stylesheet`.  `psl` is the external
public-suffix lookup `PUBLIC_SUFFIXES.domain`; `hashF` the project hash. -/
def CosmeticFilterCache.hostname_stylesheet (c : CosmeticFilterCache)
    (psl : Str → Option Str) (hashF : Str → Nat) (hostname : Str) : Str :=
  match psl hostname with
  | none => []
  | some domain =>
    let hashes := hostname_domain_hashes hashF hostname domain
    rules_to_stylesheet
      (c.specific_rules.filter (fun rule => rule.matches hashes.1 hashes.2))

/-- `CosmeticFilterCache::regen_base_stylesheet` followed by the read in
`base_stylesheet`, as a pure state transition plus value. -/
def CosmeticFilterCache.base_stylesheet_get (c : CosmeticFilterCache) :
    CosmeticFilterCache × Str :=
  match c.base_stylesheet with
  | some s => (c, s)
  | none =>
    let s := rules_to_stylesheet c.misc_rules
    ({ c with base_stylesheet := some s }, s)

/-! ## Concrete collaborator instances used by witnesses and counterexamples -/

/-- A CSS-selector validator instance that accepts every selector (the
validator is an external collaborator; any instance exhibits the core's
behavior on lines it accepts). -/
def accept_any : Str → Bool := fun _ => true

/-- A punycode converter instance (never consulted on ASCII input). -/
def puny_stub : Str → Option Str := fun _ => none

/-- A concrete hash instance for exhibiting behavior (the project hash is
external to src; all quantified theorems hold for every hash function). -/
def hash_len : Str → Nat := fun l => l.length

def dummyFilter : CosmeticFilter :=
  ⟨none, none, maskNone, none, none, none, [], none, none⟩

def okOf (o : Option (Except CosmeticFilterError CosmeticFilter)) : CosmeticFilter :=
  match o with
  | some (Except.ok r) => r
  | _ => dummyFilter

/-! ## Claim C2 -/

/-- C2: the claim reads "No core operation panics or aborts on any input:
in particular, `CosmeticFilter::parse` returns Ok or one of its six errors
for every input line (including lines such as `"#"` whose suffix start
index lies past the end of the line), and `parse_scriptlet_args` returns a
list of fields for every input string (including strings that begin with a
comma)."  The spec is the intent (§7: panics would be bugs) and the code
panics on both named inputs: on the line `"#"` the slice
`&line[suffix_start_index..]` is taken with `suffix_start_index = 2` on a
1-byte string, and on the argument string `","` the expression
`args[comma_loc - 1..comma_loc]` underflows with `comma_loc = 0`.  Both
evaluations of the embedding yield the panic value `none`. -/
theorem claim_C2 :
    CosmeticFilter.parse accept_any puny_stub hash_len (strOf "#") false = none ∧
    parse_scriptlet_args (strOf ",") = none := by
  decide

/-! ## Claim C7 -/

/-- C7: for every rule whose mask contains SCRIPT_INJECT or UNHIDE,
`add_filter` leaves every container of the cache (and the cached base
stylesheet) exactly as before the call. -/
theorem claim_C7 :
    ∀ (c : CosmeticFilterCache) (rule : CosmeticFilter),
      rule.mask.script_inject = true ∨ rule.mask.unhide = true →
      c.add_filter rule = c := by
  intro c rule h
  unfold CosmeticFilterCache.add_filter
  rcases h with h | h <;> simp [h]

def wCacheC7 : CosmeticFilterCache :=
  ⟨[strOf "x"], [], [], [], [], [dummyFilter], some (strOf "s")⟩

def wRuleScriptInject : CosmeticFilter :=
  ⟨none, none, { maskNone with script_inject := true }, none, none, none,
   strOf "x.js", none, none⟩

theorem claim_C7_witness :
    wCacheC7.add_filter wRuleScriptInject = wCacheC7 :=
  claim_C7 wCacheC7 wRuleScriptInject (Or.inl rfl)

/-! ## Claim C4 -/

/-- Comma-prefixed concatenation of the selectors of a rule list. -/
def commaJoined (rs : List CosmeticFilter) : Str :=
  (rs.map (fun r => ',' :: r.selector)).flatten

/-- One `selector {declarations}\n` line per rule, concatenated. -/
def styleLines (rs : List CosmeticFilter) : Str :=
  (rs.map (fun r => r.selector ++ strOf " \x7b" ++ r.style.getD [] ++ strOf "\x7d\n")).flatten

theorem rts_fold (rest : List CosmeticFilter) :
    ∀ (a : Str) (b : List CosmeticFilter),
      rest.foldl
        (fun (acc : Str × List CosmeticFilter) rule =>
          if rule.style.isSome then (acc.1, acc.2 ++ [rule])
          else (acc.1 ++ ',' :: rule.selector, acc.2)) (a, b) =
      (a ++ commaJoined (rest.filter (fun r => r.style.isNone)),
       b ++ rest.filter (fun r => r.style.isSome)) := by
  induction rest with
  | nil => intro a b; simp [commaJoined]
  | cons r rest ih =>
    intro a b
    rcases hr : r.style with _ | s <;>
      simp [List.foldl_cons, hr, ih, commaJoined, List.append_assoc]

theorem styled_fold (l : List CosmeticFilter) :
    ∀ st : Str,
      l.foldl
        (fun st rule =>
          st ++ rule.selector ++ strOf " \x7b" ++ rule.style.getD [] ++ strOf "\x7d\n")
        st = st ++ styleLines l := by
  induction l with
  | nil => intro st; simp [styleLines]
  | cons r rest ih =>
    intro st
    rw [List.foldl_cons, ih]
    simp [styleLines, List.append_assoc]

/-- C4 (amended): the first rule's selector always seeds the combined hide
selector list, whatever its style, and its style line is never emitted;
among the remaining rules, those without a style are appended to the hide
list (comma-separated, terminated by `\x7bdisplay:none !important;\x7d\n`)
and each rule with a style emits its own `selector \x7bdeclarations\x7d\n`
line after it; the empty rule list yields the empty string. -/
theorem claim_C4 :
    rules_to_stylesheet [] = [] ∧
    ∀ (r0 : CosmeticFilter) (rest : List CosmeticFilter),
      rules_to_stylesheet (r0 :: rest) =
        r0.selector ++ commaJoined (rest.filter (fun r => r.style.isNone)) ++
          strOf "\x7bdisplay:none !important;\x7d\n" ++
          styleLines (rest.filter (fun r => r.style.isSome)) := by
  refine ⟨rfl, ?_⟩
  intro r0 rest
  simp only [rules_to_stylesheet, rts_fold, styled_fold, List.nil_append]

def c4styled : CosmeticFilter :=
  ⟨none, none, maskNone, none, none, none, strOf ".a", some (strOf "color:red"), none⟩

/-- C4 counterexample: a rule list whose first rule has a style.  The claim
says the hide rule contains exactly the style-less rules' selectors and
each styled rule emits its own `selector \x7bdeclarations\x7d\n` line; the
code instead puts the styled first rule's selector into the hide rule and
its declarations never appear in the output. -/
theorem claim_C4_counterexample :
    rules_to_stylesheet [c4styled] = strOf ".a\x7bdisplay:none !important;\x7d\n" ∧
    ¬ List.IsInfix (strOf "color:red") (rules_to_stylesheet [c4styled]) := by
  decide

/-! ## Claim C9 -/

/-- The maximum `Argument` index occurring in a part list (0 when none). -/
def partsMaxArg (ps : List ScriptletPart) : Nat :=
  ps.foldr (fun p m => match p with | ScriptletPart.Argument i => max i m | _ => m) 0

theorem partsMaxArg_litpart (lit : Str) (ps : List ScriptletPart) :
    partsMaxArg ((if lit = [] then [] else [ScriptletPart.Literal lit]) ++ ps) =
      partsMaxArg ps := by
  by_cases h : lit = [] <;> simp [h, partsMaxArg]

theorem scriptletScan_spec (lit rem : Str) :
    (∀ i, ScriptletPart.Argument i ∈ (scriptletScan lit rem).1 → i ≤ 9) ∧
    (scriptletScan lit rem).2 = partsMaxArg (scriptletScan lit rem).1 := by
  induction lit, rem using scriptletScan.induct with
  | case1 lit d rest hd ps req heq ih =>
    rw [heq] at ih
    have hle : d.toNat - 48 ≤ 9 := by
      simp only [Char.isDigit, Bool.and_eq_true, decide_eq_true_eq] at hd
      have h2 : d.toNat ≤ 57 := hd.2
      omega
    constructor
    · intro i hi
      simp only [scriptletScan, hd, if_pos, heq] at hi
      rcases List.mem_append.mp hi with hl | hr
      · by_cases hl0 : lit = [] <;> simp [hl0] at hl
      · rcases List.mem_cons.mp hr with he | hm
        · cases he; exact hle
        · exact ih.1 i hm
    · simp only [scriptletScan, hd, if_pos, heq]
      rw [partsMaxArg_litpart]
      have ih2 : req = partsMaxArg ps := by simpa using ih.2
      rw [ih2]
      simp [partsMaxArg]
  | case2 lit d rest hd ih =>
    simpa [scriptletScan, hd] using ih
  | case3 lit c rest h ih =>
    simpa [scriptletScan, h] using ih
  | case4 lit =>
    constructor
    · intro i hi
      simp only [scriptletScan] at hi
      by_cases hl0 : lit = [] <;> simp [hl0] at hi
    · simp only [scriptletScan]
      by_cases hl0 : lit = [] <;> simp [hl0, partsMaxArg]

/-- C9 (amended): every `Argument` index produced by `Scriptlet::parse` lies
in [0, 9] — the placeholder grammar accepts a single decimal digit, and the
digit 0 is accepted, so the lower bound 1 of the original claim fails;
`required_args` equals the maximum occurring `Argument` index (0 when no
placeholder occurs); and the text `\x7b\x7b10\x7d\x7d` produces no
`Argument` part and is retained inside a `Literal` part. -/
theorem claim_C9 :
    ∀ data : Str,
      (∀ i, ScriptletPart.Argument i ∈ (Scriptlet.parse data).parts → i ≤ 9) ∧
      (Scriptlet.parse data).required_args = partsMaxArg (Scriptlet.parse data).parts ∧
      Scriptlet.parse (strOf "No scriptlet should require \x7b\x7b10\x7d\x7d arguments!") =
        { parts := [ScriptletPart.Literal
            (strOf "No scriptlet should require \x7b\x7b10\x7d\x7d arguments!")],
          required_args := 0 } := by
  intro data
  have h := scriptletScan_spec [] data
  exact ⟨by simpa [Scriptlet.parse] using h.1,
         by simpa [Scriptlet.parse] using h.2,
         by decide⟩

theorem claim_C9_witness :
    (∀ i, ScriptletPart.Argument i ∈
        (Scriptlet.parse (strOf "a\x7b\x7b3\x7d\x7db")).parts → i ≤ 9) ∧
    (Scriptlet.parse (strOf "a\x7b\x7b3\x7d\x7db")).required_args =
      partsMaxArg (Scriptlet.parse (strOf "a\x7b\x7b3\x7d\x7db")).parts :=
  ⟨(claim_C9 (strOf "a\x7b\x7b3\x7d\x7db")).1,
   (claim_C9 (strOf "a\x7b\x7b3\x7d\x7db")).2.1⟩

/-- C9 counterexample: the template `\x7b\x7b0\x7d\x7d` produces the part
`Argument 0`, so not every `Argument` index lies in [1, 9]. -/
theorem claim_C9_counterexample :
    ScriptletPart.Argument 0 ∈ (Scriptlet.parse (strOf "\x7b\x7b0\x7d\x7d")).parts ∧
    ¬ 1 ≤ (0 : Nat) := by
  decide

/-! ## Parser inversion lemmas shared by the parser claims -/

/-- The suffix start index of a line, when a `#` exists. -/
def suffix_start_of (line : Str) : Option Nat :=
  (idxOf? line '#').map (suffixStartIdx line)

theorem parseFinal_inv {V : Str → Bool} {line : Str} {debug : Bool}
    {e hs ne nhs : Option (List Nat)}
    {body : Option (Except CosmeticFilterError (Str × Option Str × CosmeticFilterMask))}
    {r : CosmeticFilter}
    (h : parseFinal V line debug e hs ne nhs body = some (.ok r)) :
    ∃ (sel : Str) (sty : Option Str) (m2 : CosmeticFilterMask),
      body = some (.ok (sel, sty, m2)) ∧
      r.entities = e ∧ r.hostnames = hs ∧ r.not_entities = ne ∧
      r.not_hostnames = nhs ∧ r.selector = sel ∧ r.style = sty ∧
      r.mask = classifyMask
        (if ¬ strIsAscii sel then { m2 with is_unicode := true } else m2) sel := by
  match body with
  | none => exact Option.noConfusion h
  | some (.error er) =>
    rw [parseFinal] at h
    simp at h
  | some (.ok (sel, sty, m2)) =>
    rw [parseFinal] at h
    split at h
    · simp at h
    · split at h
      · simp at h
      · have h2 := Except.ok.inj (Option.some.inj h)
        subst h2
        exact ⟨sel, sty, m2, rfl, rfl, rfl, rfl, rfl, rfl, rfl, rfl⟩

theorem parseWithSharp_inv {V : Str → Bool} {puny : Str → Option Str}
    {hashF : Str → Nat} {line : Str} {debug : Bool} {sharp_index : Nat}
    {r : CosmeticFilter}
    (h : parseWithSharp V puny hashF line debug sharp_index = some (.ok r)) :
    ∃ hv : HostVecs, parseAfterHost V line debug sharp_index hv = some (.ok r) := by
  rw [parseWithSharp] at h
  by_cases hsharp : sharp_index > 0
  · rw [if_pos hsharp] at h
    cases hloop : hostLoop puny hashF ⟨[], [], [], [], false⟩
        (splitOnChar ',' (line.take sharp_index)) with
    | none => rw [hloop] at h; simp at h
    | some hv =>
      rw [hloop] at h
      exact ⟨hv, h⟩
  · rw [if_neg hsharp] at h
    exact ⟨⟨[], [], [], [], false⟩, h⟩

theorem parse_ok_inv {V : Str → Bool} {puny : Str → Option Str} {hashF : Str → Nat}
    {line : Str} {debug : Bool} {r : CosmeticFilter}
    (h : CosmeticFilter.parse V puny hashF line debug = some (.ok r)) :
    ∃ (ss : Nat) (m1 : CosmeticFilterMask) (hv : HostVecs) (sel : Str)
      (sty : Option Str) (m2 m3 : CosmeticFilterMask),
      suffix_start_of line = some ss ∧
      m1.is_class_selector = false ∧ m1.is_id_selector = false ∧
      m1.is_href_selector = false ∧ m1.script_inject = false ∧
      parseBody line ss m1 = some (.ok (sel, sty, m2)) ∧
      (m3 = m2 ∨ m3 = { m2 with is_unicode := true }) ∧
      r.entities = vecToOption hv.entities_vec ∧
      r.hostnames = vecToOption hv.hostnames_vec ∧
      r.not_entities = vecToOption hv.not_entities_vec ∧
      r.not_hostnames = vecToOption hv.not_hostnames_vec ∧
      r.selector = sel ∧ r.style = sty ∧ r.mask = classifyMask m3 sel := by
  rw [CosmeticFilter.parse] at h
  cases hidx : idxOf? line '#' with
  | none => rw [hidx] at h; simp at h
  | some sharp_index =>
    rw [hidx] at h
    have h2 : parseWithSharp V puny hashF line debug sharp_index = some (.ok r) := h
    obtain ⟨hv, h3⟩ := parseWithSharp_inv h2
    rw [parseAfterHost] at h3
    split at h3
    · exact Option.noConfusion h3
    · obtain ⟨sel, sty, m2, hbody, he, hh, hne, hnh, hsel, hsty, hmask⟩ :=
        parseFinal_inv h3
      refine ⟨suffixStartIdx line sharp_index, maskBeforeBody line sharp_index hv,
        hv, sel, sty, m2,
        (if ¬ strIsAscii sel then { m2 with is_unicode := true } else m2),
        ?_, rfl, rfl, rfl, rfl, hbody, ?_, he, hh, hne, hnh, hsel, hsty, hmask⟩
      · simp [suffix_start_of, hidx]
      · by_cases ha : ¬ strIsAscii sel
        · right; simp [ha]
        · left; simp [ha]

theorem parseBody_mask {line : Str} {ss : Nat} {m1 : CosmeticFilterMask}
    {sel : Str} {sty : Option Str} {m2 : CosmeticFilterMask}
    (h : parseBody line ss m1 = some (.ok (sel, sty, m2))) :
    m2 = m1 ∨ m2 = { m1 with script_inject := true } := by
  rw [parseBody] at h
  split at h
  · split at h
    · split at h
      · exact Option.noConfusion h
      · right
        exact (congrArg (·.2.2) (Except.ok.inj (Option.some.inj h))).symm
    · split at h
      · exact Option.noConfusion h
      · left
        exact (congrArg (·.2.2) (Except.ok.inj (Option.some.inj h))).symm
  · split at h
    · right
      exact (congrArg (·.2.2) (Except.ok.inj (Option.some.inj h))).symm
    · split at h
      · simp at h
      · left
        exact (congrArg (·.2.2) (Except.ok.inj (Option.some.inj h))).symm

/-! ## Claim C5 -/

/-- The invariant the claim asserts of one hash set: absent, or non-empty
and sorted ascending. -/
def optHashSetOk (o : Option (List Nat)) : Prop :=
  match o with
  | none => True
  | some v => v ≠ [] ∧ v.Sorted (· ≤ ·)

theorem vecToOption_ok (v : List Nat) : optHashSetOk (vecToOption v) := by
  rw [vecToOption]
  split
  · next hne =>
    refine ⟨?_, List.sorted_insertionSort _ v⟩
    intro hnil
    have hp := List.perm_insertionSort (· ≤ ·) v
    rw [sortHashes] at hnil
    rw [hnil] at hp
    exact hne (hp.symm.eq_nil)
  · trivial

/-- C5 (amended): for every line accepted by `CosmeticFilter::parse`, each
of the four hash sets (hostnames, entities, not_hostnames, not_entities) is
either absent or present, non-empty and sorted ascending.  Duplicate hashes
are NOT removed: the parser only sorts, so a hostname written twice before
the separator appears twice. -/
theorem claim_C5 :
    ∀ (V : Str → Bool) (puny : Str → Option Str) (hashF : Str → Nat)
      (line : Str) (debug : Bool) (r : CosmeticFilter),
      CosmeticFilter.parse V puny hashF line debug = some (.ok r) →
      optHashSetOk r.hostnames ∧ optHashSetOk r.entities ∧
      optHashSetOk r.not_hostnames ∧ optHashSetOk r.not_entities := by
  intro V puny hashF line debug r h
  obtain ⟨ss, m1, hv, sel, sty, m2, m3, _, _, _, _, _, _, _, he, hh, hne, hnh, _, _, _⟩ :=
    parse_ok_inv h
  rw [he, hh, hne, hnh]
  exact ⟨vecToOption_ok _, vecToOption_ok _, vecToOption_ok _, vecToOption_ok _⟩

theorem claim_C5_witness :
    optHashSetOk (okOf (CosmeticFilter.parse accept_any puny_stub hash_len
      (strOf "bb.net,aa.com,c.de##.ad") false)).hostnames ∧
    optHashSetOk (okOf (CosmeticFilter.parse accept_any puny_stub hash_len
      (strOf "bb.net,aa.com,c.de##.ad") false)).entities ∧
    optHashSetOk (okOf (CosmeticFilter.parse accept_any puny_stub hash_len
      (strOf "bb.net,aa.com,c.de##.ad") false)).not_hostnames ∧
    optHashSetOk (okOf (CosmeticFilter.parse accept_any puny_stub hash_len
      (strOf "bb.net,aa.com,c.de##.ad") false)).not_entities :=
  claim_C5 accept_any puny_stub hash_len (strOf "bb.net,aa.com,c.de##.ad") false
    (okOf (CosmeticFilter.parse accept_any puny_stub hash_len
      (strOf "bb.net,aa.com,c.de##.ad") false)) (by decide)

/-- C5 counterexample: the line `aa.com,aa.com##.ad` (same hostname twice)
parses — exhibited with the length hash and a validator accepting `.ad` —
into a `hostnames` set holding the same hash twice, so the sets are not
free of duplicates. -/
theorem claim_C5_counterexample :
    (okOf (CosmeticFilter.parse accept_any puny_stub hash_len
      (strOf "aa.com,aa.com##.ad") false)).hostnames = some [6, 6] ∧
    ¬ (6 : Nat) ∉ [6] := by
  decide

/-! ## Claim C6 -/

theorem classifyMask_spec (m : CosmeticFilterMask) (sel : Str)
    (hc : m.is_class_selector = false) (hi : m.is_id_selector = false)
    (hh : m.is_href_selector = false) :
    ((classifyMask m sel).is_class_selector = true →
      (classifyMask m sel).is_id_selector = false ∧
      (classifyMask m sel).is_href_selector = false) ∧
    ((classifyMask m sel).is_id_selector = true →
      (classifyMask m sel).is_class_selector = false ∧
      (classifyMask m sel).is_href_selector = false) ∧
    ((classifyMask m sel).is_href_selector = true →
      (classifyMask m sel).is_class_selector = false ∧
      (classifyMask m sel).is_id_selector = false) ∧
    (classifyMask m sel).script_inject = m.script_inject ∧
    (m.script_inject = true → classifyMask m sel = m) := by
  rw [classifyMask]
  by_cases hs : m.script_inject
  · simp [hs, hc, hi, hh]
  · simp only [hs, Bool.not_false, if_true, if_pos, Bool.not_eq_true]
    split
    · simp [hc, hi, hh]
    · split
      · simp [hc, hi, hh]
      · split
        · simp [hc, hi, hh]
        · split
          · simp [hc, hi, hh]
          · simp [hc, hi, hh, hs]

/-- C6: for every line accepted by `CosmeticFilter::parse`, at most one of
`IS_CLASS_SELECTOR`, `IS_ID_SELECTOR`, `IS_HREF_SELECTOR` is set in the
resulting rule's mask, and none of them is set when `SCRIPT_INJECT` is
set. -/
theorem claim_C6 :
    ∀ (V : Str → Bool) (puny : Str → Option Str) (hashF : Str → Nat)
      (line : Str) (debug : Bool) (r : CosmeticFilter),
      CosmeticFilter.parse V puny hashF line debug = some (.ok r) →
      ((r.mask.is_class_selector = true →
          r.mask.is_id_selector = false ∧ r.mask.is_href_selector = false) ∧
       (r.mask.is_id_selector = true →
          r.mask.is_class_selector = false ∧ r.mask.is_href_selector = false) ∧
       (r.mask.is_href_selector = true →
          r.mask.is_class_selector = false ∧ r.mask.is_id_selector = false)) ∧
      (r.mask.script_inject = true →
        r.mask.is_class_selector = false ∧ r.mask.is_id_selector = false ∧
        r.mask.is_href_selector = false) := by
  intro V puny hashF line debug r h
  obtain ⟨ss, m1, hv, sel, sty, m2, m3, _, h1c, h1i, h1h, h1s, hbody, hm3, _, _, _, _,
    _, _, hmask⟩ := parse_ok_inv h
  have hm2 := parseBody_mask hbody
  have h2c : m2.is_class_selector = false := by
    rcases hm2 with h2 | h2 <;> rw [h2] <;> simp [h1c]
  have h2i : m2.is_id_selector = false := by
    rcases hm2 with h2 | h2 <;> rw [h2] <;> simp [h1i]
  have h2h : m2.is_href_selector = false := by
    rcases hm2 with h2 | h2 <;> rw [h2] <;> simp [h1h]
  have h3c : m3.is_class_selector = false := by
    rcases hm3 with h3 | h3 <;> rw [h3] <;> simp [h2c]
  have h3i : m3.is_id_selector = false := by
    rcases hm3 with h3 | h3 <;> rw [h3] <;> simp [h2i]
  have h3h : m3.is_href_selector = false := by
    rcases hm3 with h3 | h3 <;> rw [h3] <;> simp [h2h]
  obtain ⟨c1, c2, c3, c4, c5⟩ := classifyMask_spec m3 sel h3c h3i h3h
  rw [hmask]
  refine ⟨⟨c1, c2, c3⟩, ?_⟩
  intro hsi
  have hsi3 : m3.script_inject = true := by rw [← c4]; exact hsi
  rw [c5 hsi3]
  exact ⟨h3c, h3i, h3h⟩

theorem claim_C6_witness :
    (((okOf (CosmeticFilter.parse accept_any puny_stub hash_len
        (strOf "###selector") false)).mask.is_class_selector = true →
      (okOf (CosmeticFilter.parse accept_any puny_stub hash_len
        (strOf "###selector") false)).mask.is_id_selector = false ∧
      (okOf (CosmeticFilter.parse accept_any puny_stub hash_len
        (strOf "###selector") false)).mask.is_href_selector = false) ∧
     ((okOf (CosmeticFilter.parse accept_any puny_stub hash_len
        (strOf "###selector") false)).mask.is_id_selector = true →
      (okOf (CosmeticFilter.parse accept_any puny_stub hash_len
        (strOf "###selector") false)).mask.is_class_selector = false ∧
      (okOf (CosmeticFilter.parse accept_any puny_stub hash_len
        (strOf "###selector") false)).mask.is_href_selector = false) ∧
     ((okOf (CosmeticFilter.parse accept_any puny_stub hash_len
        (strOf "###selector") false)).mask.is_href_selector = true →
      (okOf (CosmeticFilter.parse accept_any puny_stub hash_len
        (strOf "###selector") false)).mask.is_class_selector = false ∧
      (okOf (CosmeticFilter.parse accept_any puny_stub hash_len
        (strOf "###selector") false)).mask.is_id_selector = false)) ∧
    ((okOf (CosmeticFilter.parse accept_any puny_stub hash_len
        (strOf "###selector") false)).mask.script_inject = true →
      (okOf (CosmeticFilter.parse accept_any puny_stub hash_len
        (strOf "###selector") false)).mask.is_class_selector = false ∧
      (okOf (CosmeticFilter.parse accept_any puny_stub hash_len
        (strOf "###selector") false)).mask.is_id_selector = false ∧
      (okOf (CosmeticFilter.parse accept_any puny_stub hash_len
        (strOf "###selector") false)).mask.is_href_selector = false) :=
  claim_C6 accept_any puny_stub hash_len (strOf "###selector") false
    (okOf (CosmeticFilter.parse accept_any puny_stub hash_len
      (strOf "###selector") false)) (by decide)

/-! ## Claim C3 -/

theorem classifyMask_script (m : CosmeticFilterMask) (sel : Str) :
    (classifyMask m sel).script_inject = m.script_inject := by
  unfold classifyMask
  split
  · split
    · rfl
    · split
      · rfl
      · split
        · rfl
        · split
          · rfl
          · rfl
  · rfl

/-- C3 (amended): for every accepted line whose suffix begins with
`script:` and is long enough, SCRIPT_INJECT is set in the resulting rule's
mask exactly when `script:` is immediately followed by `inject(`; in that
case the `script:inject(` prefix (and the final character of the line) is
consumed from the selector.  When `inject(` does not follow, SCRIPT_INJECT
is NOT set (contrary to the original claim). -/
theorem claim_C3 :
    ∀ (V : Str → Bool) (puny : Str → Option Str) (hashF : Str → Nat)
      (line : Str) (debug : Bool) (r : CosmeticFilter) (ss : Nat),
      CosmeticFilter.parse V puny hashF line debug = some (.ok r) →
      suffix_start_of line = some ss →
      line.length - ss > 7 →
      strStarts (line.drop ss) (strOf "script:") = true →
      (r.mask.script_inject = strStarts (line.drop (ss + 7)) (strOf "inject(")) ∧
      (strStarts (line.drop (ss + 7)) (strOf "inject(") = true →
        r.selector = sliceStr line (ss + 14) (line.length - 1)) := by
  intro V puny hashF line debug r ss h hss hlen hscript
  obtain ⟨ss', m1, hv, sel, sty, m2, m3, hss', h1c, h1i, h1h, h1s, hbody, hm3, _, _,
    _, _, hsel, _, hmask⟩ := parse_ok_inv h
  rw [hss] at hss'
  have hsseq : ss = ss' := Option.some.inj hss'
  subst hsseq
  rw [parseBody] at hbody
  rw [if_pos (by simp [hlen, hscript])] at hbody
  have hm3s : m3.script_inject = m2.script_inject := by
    rcases hm3 with h3 | h3 <;> rw [h3]
  have hrs : r.mask.script_inject = m2.script_inject := by
    rw [hmask, classifyMask_script, hm3s]
  by_cases hi : strStarts (line.drop (ss + 7)) (strOf "inject(") = true
  · rw [if_pos hi, if_pos hi] at hbody
    split at hbody
    · exact Option.noConfusion hbody
    · have h2 := Except.ok.inj (Option.some.inj hbody)
      have hm2eq : ({ m1 with script_inject := true } : CosmeticFilterMask) = m2 :=
        congrArg (·.2.2) h2
      have hseleq : sliceStr line (ss + 7 + 7) (line.length - 1) = sel :=
        congrArg (·.1) h2
      constructor
      · rw [hrs, ← hm2eq, hi]
      · intro _
        rw [hsel, ← hseleq]
  · rw [if_neg hi, if_neg hi] at hbody
    split at hbody
    · exact Option.noConfusion hbody
    · have h2 := Except.ok.inj (Option.some.inj hbody)
      have hm2eq : m1 = m2 := congrArg (·.2.2) h2
      constructor
      · rw [hrs, ← hm2eq, h1s]
        simp [Bool.not_eq_true] at hi
        rw [hi]
      · intro hcon
        exact absurd hcon hi

theorem claim_C3_witness :
    (CosmeticFilter.parse accept_any puny_stub hash_len
        (strOf "##script:inject(abc)") false =
      some (.ok (okOf (CosmeticFilter.parse accept_any puny_stub hash_len
        (strOf "##script:inject(abc)") false)))) ∧
    (okOf (CosmeticFilter.parse accept_any puny_stub hash_len
        (strOf "##script:inject(abc)") false)).mask.script_inject = true ∧
    (okOf (CosmeticFilter.parse accept_any puny_stub hash_len
        (strOf "##script:inject(abc)") false)).selector =
      sliceStr (strOf "##script:inject(abc)") 16 19 := by
  have h := claim_C3 accept_any puny_stub hash_len (strOf "##script:inject(abc)")
    false (okOf (CosmeticFilter.parse accept_any puny_stub hash_len
      (strOf "##script:inject(abc)") false)) 2
    (by decide) (by decide) (by decide) (by decide)
  refine ⟨by decide, ?_, ?_⟩
  · rw [h.1]; decide
  · have h2 := h.2 (by decide)
    rw [h2]
    decide

/-- C3 counterexample: the line `##script:foobar` has a long-enough suffix
beginning with `script:` not followed by `inject(`; it parses (length hash,
accept-all validator — the real validator also accepts the element selector
`fooba`) into a rule with SCRIPT_INJECT unset, contradicting the claim that
SCRIPT_INJECT is set even without `inject(`. -/
theorem claim_C3_counterexample :
    ((strOf "##script:foobar").length - 2 > 7 ∧
     strStarts ((strOf "##script:foobar").drop 2) (strOf "script:") = true) ∧
    CosmeticFilter.parse accept_any puny_stub hash_len (strOf "##script:foobar")
        false =
      some (.ok (okOf (CosmeticFilter.parse accept_any puny_stub hash_len
        (strOf "##script:foobar") false))) ∧
    (okOf (CosmeticFilter.parse accept_any puny_stub hash_len
        (strOf "##script:foobar") false)).mask.script_inject = false := by
  decide

/-! ## Claim C1 -/

theorem matches_single_hostname (r : CosmeticFilter) (re rh : List Nat) (h0 : Nat)
    (hh : r.hostnames = some [h0]) (he : r.entities = none)
    (hnh : r.not_hostnames = none) (hne : r.not_entities = none) :
    r.matches re rh = rh.contains h0 := by
  rw [CosmeticFilter.matches, hh, he, hnh, hne]
  cases hc : rh.contains h0 <;> simp [hasIntersection, hc] <;> simpa using hc

theorem contains_map_hash (hashF : Str → Nat) (l : List Str) (h0 : Nat) :
    ((l.map hashF).contains h0 = true) ↔ ∃ s ∈ l, hashF s = h0 := by
  simp

/-- C1: for a rule `r` installed with exactly one positive hostname hash
`h0` (no entity and no negative constraints) as the sole specific rule of
the cache, `hostname_stylesheet hostname` consists of `r`'s selector (with
the hide suffix) exactly when some dotted suffix label chain of `hostname`,
from the full hostname down to the registrable domain returned by the
public-suffix collaborator, hashes to `h0`; it is empty otherwise, and it
is empty for any hostname without a public-suffix match.  Quantified over
every public-suffix lookup and every hash function. -/
theorem claim_C1 :
    ∀ (psl : Str → Option Str) (hashF : Str → Nat) (c : CosmeticFilterCache)
      (hostname : Str) (r : CosmeticFilter) (h0 : Nat) (domain : Str),
      (psl hostname = none → c.hostname_stylesheet psl hashF hostname = []) ∧
      (psl hostname = some domain →
        r.hostnames = some [h0] → r.entities = none →
        r.not_hostnames = none → r.not_entities = none →
        c.specific_rules = [r] →
        ((∃ s ∈ hostnameSuffixChains hostname domain, hashF s = h0) →
          c.hostname_stylesheet psl hashF hostname =
            r.selector ++ strOf "\x7bdisplay:none !important;\x7d\n") ∧
        (¬ (∃ s ∈ hostnameSuffixChains hostname domain, hashF s = h0) →
          c.hostname_stylesheet psl hashF hostname = [])) := by
  intro psl hashF c hostname r h0 domain
  constructor
  · intro hn
    rw [CosmeticFilterCache.hostname_stylesheet, hn]
  · intro hd hh he hnh hne hspec
    have hm : r.matches (hostname_domain_hashes hashF hostname domain).1
        (hostname_domain_hashes hashF hostname domain).2 =
        ((hostnameSuffixChains hostname domain).map hashF).contains h0 := by
      rw [matches_single_hostname r _ _ h0 hh he hnh hne]
      rfl
    constructor
    · intro hex
      have hcont : ((hostnameSuffixChains hostname domain).map hashF).contains h0 =
          true := (contains_map_hash hashF _ h0).mpr hex
      rw [CosmeticFilterCache.hostname_stylesheet, hd, hspec]
      show rules_to_stylesheet
        ([r].filter (fun rule => rule.matches
          (hostname_domain_hashes hashF hostname domain).1
          (hostname_domain_hashes hashF hostname domain).2)) = _
      rw [List.filter_cons, List.filter_nil]
      rw [if_pos (by rw [hm]; exact hcont)]
      rfl
    · intro hnex
      have hcont : ((hostnameSuffixChains hostname domain).map hashF).contains h0 =
          false := by
        cases hc : ((hostnameSuffixChains hostname domain).map hashF).contains h0
        · rfl
        · exact absurd ((contains_map_hash hashF _ h0).mp hc) hnex
      rw [CosmeticFilterCache.hostname_stylesheet, hd, hspec]
      show rules_to_stylesheet
        ([r].filter (fun rule => rule.matches
          (hostname_domain_hashes hashF hostname domain).1
          (hostname_domain_hashes hashF hostname domain).2)) = _
      rw [List.filter_cons, List.filter_nil]
      rw [if_neg (by rw [hm, hcont]; exact Bool.false_ne_true)]
      rfl

def pslC1 : Str → Option Str := fun h =>
  if h = strOf "sub.example.com" then some (strOf "example.com") else none

def ruleC1 : CosmeticFilter :=
  ⟨none, some [11], maskNone, none, none, none, strOf ".ad", none, none⟩

def cacheC1 : CosmeticFilterCache := ⟨[], [], [], [], [ruleC1], [], none⟩

theorem claim_C1_witness :
    cacheC1.hostname_stylesheet pslC1 hash_len (strOf "other.net") = [] ∧
    cacheC1.hostname_stylesheet pslC1 hash_len (strOf "sub.example.com") =
      ruleC1.selector ++ strOf "\x7bdisplay:none !important;\x7d\n" :=
  ⟨(claim_C1 pslC1 hash_len cacheC1 (strOf "other.net") ruleC1 11
      (strOf "example.com")).1 (by decide),
   ((claim_C1 pslC1 hash_len cacheC1 (strOf "sub.example.com") ruleC1 11
      (strOf "example.com")).2 (by decide) rfl rfl rfl rfl rfl).1 (by decide)⟩

/-! ## Claim C8 -/

/-- Alias resolution step of `get_scriptlet`. -/
def resolveName (s : Scriptlets) (first : Str) : Str :=
  match alookup s.aliases (without_js_extension first) with
  | some aliased => aliased
  | none => without_js_extension first

/-- The substitution the claim describes: the template's parts concatenated
with each `Argument i` replaced by the i-th remaining argument. -/
def renderParts (t : Scriptlet) (args : List Str) : Str :=
  (t.parts.map (fun p =>
    match p with
    | ScriptletPart.Literal l => l
    | ScriptletPart.Argument i => args.getD (i - 1) [])).flatten

theorem patch_fold_render (args : List Str) (ps : List ScriptletPart) :
    ∀ acc : Str,
      (∀ i, ScriptletPart.Argument i ∈ ps → 1 ≤ i ∧ i - 1 < args.length) →
      ps.foldl (patchStep args) (some acc) =
      some (acc ++ (ps.map (fun p =>
        match p with
        | ScriptletPart.Literal l => l
        | ScriptletPart.Argument i => args.getD (i - 1) [])).flatten) := by
  induction ps with
  | nil => intro acc _; simp
  | cons p ps ih =>
    intro acc hok
    cases p with
    | Literal l =>
      rw [List.foldl_cons]
      have hstep : patchStep args (some acc) (ScriptletPart.Literal l) =
          some (acc ++ l) := rfl
      rw [hstep, ih (acc ++ l) (fun i hi => hok i (List.mem_cons_of_mem _ hi))]
      simp [List.append_assoc]
    | Argument i =>
      have hi := hok i (List.mem_cons_self _ _)
      rw [List.foldl_cons]
      have hne : ¬ i = 0 := by omega
      have hget : args[i - 1]? = some (args.getD (i - 1) []) := by
        rw [List.getElem?_eq_getElem hi.2, List.getD_eq_getElem _ _ hi.2]
      have hstep : patchStep args (some acc) (ScriptletPart.Argument i) =
          some (acc ++ args.getD (i - 1) []) := by
        simp only [patchStep, ScriptletPart.patched, if_neg hne, hget]
      rw [hstep, ih _ (fun j hj => hok j (List.mem_cons_of_mem _ hj))]
      simp [List.append_assoc]

theorem patch_render (t : Scriptlet) (args : List Str)
    (hlen : args.length = t.required_args)
    (hwf : ∀ i, ScriptletPart.Argument i ∈ t.parts → 1 ≤ i ∧ i ≤ t.required_args) :
    t.patch args = some (.ok (renderParts t args)) := by
  rw [Scriptlet.patch, if_neg (by simp [hlen])]
  rw [patch_fold_render args t.parts []
    (fun i hi => ⟨(hwf i hi).1, by have := hwf i hi; omega⟩)]
  rw [renderParts]
  simp

theorem alookup_mem {β : Type} {m : List (Str × β)} {k : Str} {v : β}
    (h : alookup m k = some v) : (k, v) ∈ m := by
  induction m with
  | nil => simp [alookup] at h
  | cons p rest ih =>
    rw [alookup] at h
    split at h
    · next heq =>
      cases h
      rw [← heq]
      exact List.mem_cons_self _ _
    · exact List.mem_cons_of_mem _ (ih h)

/-- C8 (amended): for every catalog whose templates have all `Argument`
indices between 1 and `required_args` (every catalog produced from
placeholders `\x7b\x7bd\x7d\x7d` with d in 1..9 qualifies; an `Argument 0`
from `\x7b\x7b0\x7d\x7d` makes `patch` panic instead) and every argument
string that does not begin with a comma (a leading comma panics
`parse_scriptlet_args`): `get_scriptlet` returns MissingScriptletName
exactly when the split argument list is empty; otherwise
NoMatchingScriptlet exactly when the first element, after dropping a `.js`
suffix and resolving through the alias map, names no known scriptlet;
otherwise WrongNumberOfArguments exactly when the number of remaining
arguments differs from the template's `required_args`; and otherwise Ok
with the template's parts concatenated, each `Argument i` replaced by the
i-th remaining argument. -/
theorem claim_C8 :
    ∀ (s : Scriptlets) (q : Str),
      (∀ n t, (n, t) ∈ s.scriptlets →
        ∀ i, ScriptletPart.Argument i ∈ t.parts → 1 ≤ i ∧ i ≤ t.required_args) →
      q.head? ≠ some ',' →
      ∃ l, parse_scriptlet_args q = some l ∧
        (l = [] → s.get_scriptlet q = some (.error .MissingScriptletName)) ∧
        (∀ first args, l = first :: args →
          (alookup s.scriptlets (resolveName s first) = none →
            s.get_scriptlet q = some (.error .NoMatchingScriptlet)) ∧
          (∀ t, alookup s.scriptlets (resolveName s first) = some t →
            (args.length ≠ t.required_args →
              s.get_scriptlet q = some (.error .WrongNumberOfArguments)) ∧
            (args.length = t.required_args →
              s.get_scriptlet q = some (.ok (renderParts t args))))) := by
  intro s q hwf hq
  have hp : ∃ l, parse_scriptlet_args q = some l := by
    cases q with
    | nil => exact ⟨[], rfl⟩
    | cons c rest =>
      have hc : ¬ c = ',' := by
        intro hcc
        exact hq (by rw [List.head?, hcc])
      exact ⟨argsGo c [c] [] rest, by rw [parse_scriptlet_args, if_neg hc]⟩
  obtain ⟨l, hl⟩ := hp
  refine ⟨l, hl, ?_, ?_⟩
  · intro hnil
    rw [Scriptlets.get_scriptlet, hl, hnil]
  · intro first args hcons
    constructor
    · intro hnone
      rw [Scriptlets.get_scriptlet, hl, hcons]
      show (match alookup s.scriptlets (resolveName s first) with
        | none => some (Except.error ScriptletError.NoMatchingScriptlet)
        | some template => template.patch args) = _
      rw [hnone]
    · intro t ht
      have hgs : s.get_scriptlet q = t.patch args := by
        rw [Scriptlets.get_scriptlet, hl, hcons]
        show (match alookup s.scriptlets (resolveName s first) with
          | none => some (Except.error ScriptletError.NoMatchingScriptlet)
          | some template => template.patch args) = _
        rw [ht]
      constructor
      · intro hne
        rw [hgs, Scriptlet.patch, if_pos hne]
      · intro heq
        rw [hgs, patch_render t args heq (hwf (resolveName s first) t (alookup_mem ht))]

def catC8 : Scriptlets :=
  ⟨[(strOf "greet", Scriptlet.parse (strOf "Hello \x7b\x7b1\x7d\x7d"))],
   [(strOf "g", strOf "greet")]⟩

theorem claim_C8_witness :
    catC8.get_scriptlet (strOf "") =
      some (Except.error ScriptletError.MissingScriptletName) ∧
    catC8.get_scriptlet (strOf "g, world") =
      some (Except.ok (strOf "Hello world")) := by
  have hwf : ∀ n t, (n, t) ∈ catC8.scriptlets →
      ∀ i, ScriptletPart.Argument i ∈ t.parts → 1 ≤ i ∧ i ≤ t.required_args := by
    intro n t hmem i hi
    have hmem2 : (n, t) = (strOf "greet", Scriptlet.parse (strOf "Hello \x7b\x7b1\x7d\x7d")) := by
      simpa [catC8] using hmem
    have ht : t = Scriptlet.parse (strOf "Hello \x7b\x7b1\x7d\x7d") :=
      congrArg Prod.snd hmem2
    subst ht
    have hparts : (Scriptlet.parse (strOf "Hello \x7b\x7b1\x7d\x7d")).parts =
        [ScriptletPart.Literal (strOf "Hello "), ScriptletPart.Argument 1] := by
      decide
    have hreq : (Scriptlet.parse (strOf "Hello \x7b\x7b1\x7d\x7d")).required_args = 1 := by
      decide
    rw [hparts] at hi
    rw [hreq]
    rcases List.mem_cons.mp hi with h1 | h1
    · exact ScriptletPart.noConfusion h1
    · have h2 := List.mem_singleton.mp h1
      have h3 : i = 1 := by injection h2
      omega
  constructor
  · obtain ⟨l, hl, h1, _⟩ := claim_C8 catC8 (strOf "") hwf (by decide)
    have h0 : parse_scriptlet_args (strOf "") = some [] := by decide
    rw [h0] at hl
    exact h1 (Option.some.inj hl).symm
  · obtain ⟨l, hl, _, h2⟩ := claim_C8 catC8 (strOf "g, world") hwf (by decide)
    have h0 : parse_scriptlet_args (strOf "g, world") =
        some [strOf "g", strOf "world"] := by decide
    rw [h0] at hl
    have h3 := (h2 (strOf "g") [strOf "world"] (Option.some.inj hl).symm).2
      (Scriptlet.parse (strOf "Hello \x7b\x7b1\x7d\x7d")) (by decide)
    have h4 := h3.2 (by decide)
    rw [h4]
    decide

/-- C8 counterexample: the claim quantifies over every catalog and argument
string, but (a) an argument string beginning with a comma panics
`parse_scriptlet_args` (the slice `args[comma_loc - 1..comma_loc]`
underflows), so `get_scriptlet` produces none of the claimed outcomes; and
(b) a catalog holding the template `\x7b\x7b0\x7d\x7d` (reachable through
`Scriptlet::parse`) has matching arity 0, yet `patch` panics on
`args[0 - 1]` instead of returning Ok. -/
theorem claim_C8_counterexample :
    Scriptlets.get_scriptlet ⟨[], []⟩ (strOf ",") = none ∧
    Scriptlets.get_scriptlet
      ⟨[(strOf "z", Scriptlet.parse (strOf "\x7b\x7b0\x7d\x7d"))], []⟩
      (strOf "z") = none := by
  decide

/-! ## Claim C10 -/

theorem templLines_append (a b : List Str) :
    ∀ st : TemplState,
      templLines st (a ++ b) =
        match templLines st a with
        | none => none
        | some st' => templLines st' b := by
  induction a with
  | nil => intro st; rfl
  | cons l a ih =>
    intro st
    rw [List.cons_append, templLines, templLines]
    cases templStep st l with
    | none => rfl
    | some st2 => exact ih st2

/-- Processing lines that are comments or contain non-whitespace never
finalizes a resource: with a resource open, the scriptlet and alias maps
are untouched. -/
theorem templLines_keep (ls : List Str) :
    ∀ (st st' : TemplState) (nm : Str),
      st.name = some nm →
      (∀ l ∈ ls, line_is_comment l = true ∨ has_non_ws l = true) →
      templLines st ls = some st' →
      st'.scriptlets = st.scriptlets ∧ st'.aliases = st.aliases := by
  induction ls with
  | nil =>
    intro st st' nm hn _ h
    have := Option.some.inj h
    rw [← this]
    exact ⟨rfl, rfl⟩
  | cons l ls ih =>
    intro st st' nm hn hall h
    rw [templLines] at h
    cases hstep : templStep st l with
    | none => rw [hstep] at h; exact Option.noConfusion h
    | some stm =>
      rw [hstep] at h
      have hl := hall l (List.mem_cons_self _ _)
      have hkeep : stm.scriptlets = st.scriptlets ∧ stm.aliases = st.aliases ∧
          ∃ nm', stm.name = some nm' := by
        rw [templStep] at hstep
        by_cases hcom : line_is_comment l = true
        · rw [if_pos hcom] at hstep
          have := Option.some.inj hstep
          rw [← this]
          exact ⟨rfl, rfl, nm, hn⟩
        · rw [if_neg hcom, hn] at hstep
          have hstep2 : (if strStarts l (strOf "/// ") then
              (match splitWs (l.drop 4) with
               | prop :: value :: _ =>
                 some { name := some nm,
                        details := (prop, value) :: st.details,
                        script := st.script,
                        scriptlets := st.scriptlets,
                        aliases := st.aliases }
               | _ => none)
            else if has_non_ws l then
              some { name := some nm,
                     details := st.details,
                     script := st.script ++ trimStr l,
                     scriptlets := st.scriptlets,
                     aliases := st.aliases }
            else
              some { name := none,
                     details := [],
                     script := [],
                     scriptlets := (without_js_extension nm,
                       Scriptlet.parse st.script) :: st.scriptlets,
                     aliases := (match alookup st.details (strOf "alias") with
                                 | some al => (without_js_extension al,
                                     without_js_extension nm) :: st.aliases
                                 | none => st.aliases) }) = some stm := hstep
          by_cases hsl : strStarts l (strOf "/// ") = true
          · rw [if_pos hsl] at hstep2
            rcases hsw : splitWs (l.drop 4) with _ | ⟨p, _ | ⟨v, rest2⟩⟩
            · rw [hsw] at hstep2; exact Option.noConfusion hstep2
            · rw [hsw] at hstep2; exact Option.noConfusion hstep2
            · rw [hsw] at hstep2
              have := Option.some.inj hstep2
              rw [← this]
              exact ⟨rfl, rfl, nm, rfl⟩
          · rw [if_neg hsl] at hstep2
            by_cases hnw : has_non_ws l = true
            · rw [if_pos hnw] at hstep2
              have := Option.some.inj hstep2
              rw [← this]
              exact ⟨rfl, rfl, nm, rfl⟩
            · rcases hl with h1 | h1
              · exact absurd h1 hcom
              · exact absurd h1 hnw
      obtain ⟨hs1, hs2, nm', hnm'⟩ := hkeep
      have hrest := ih stm st' nm' hnm'
        (fun x hx => hall x (List.mem_cons_of_mem _ hx)) h
      exact ⟨hrest.1.trans hs1, hrest.2.trans hs2⟩

/-- C10 (amended): a resources file whose final resource is opened by a
`/// name` line but whose body is never followed by a blank line before the
end of the input does not register that final resource: the catalog equals
the catalog accumulated over the preceding (blank-line-terminated)
resources, which are registered normally.  In particular, when the final
resource's canonical name is not used by any earlier terminated resource or
alias, it is absent from the catalog and `get_scriptlet` invoking it
returns NoMatchingScriptlet.  (As stated originally the claim fails when an
earlier terminated resource used the same canonical name — see the
counterexample.) -/
theorem claim_C10 :
    ∀ (data : Str) (pre body : List Str) (n : Str) (st0 : TemplState)
      (cat : Scriptlets),
      linesOf (strip_top_comment data) = pre ++ (strOf "/// " ++ n) :: body →
      templLines initTemplState pre = some st0 →
      st0.name = none →
      (∀ l ∈ body, line_is_comment l = true ∨ has_non_ws l = true) →
      Scriptlets.parse_template_file data = some cat →
      cat.scriptlets = st0.scriptlets ∧ cat.aliases = st0.aliases ∧
      (∀ (q cname : Str),
        cname = without_js_extension (trimStr n) →
        alookup st0.scriptlets cname = none →
        alookup st0.aliases cname = none →
        parse_scriptlet_args q = some [cname] →
        without_js_extension cname = cname →
        cat.get_scriptlet q = some (Except.error ScriptletError.NoMatchingScriptlet)) := by
  intro data pre body n st0 cat hlines hpre hname hbody hfile
  rw [Scriptlets.parse_template_file, hlines] at hfile
  rw [templLines_append, hpre] at hfile
  have hfile2 : (match templLines st0 ((strOf "/// " ++ n) :: body) with
    | none => none
    | some st => some (⟨st.scriptlets, st.aliases⟩ : Scriptlets)) = some cat := hfile
  rw [templLines] at hfile2
  have h4 : strOf "/// " = ['/', '/', '/', ' '] := by decide
  have hmarker : templStep st0 (strOf "/// " ++ n) =
      some { st0 with name := some (trimStr n) } := by
    rw [templStep]
    have hcom : line_is_comment (strOf "/// " ++ n) = false := by
      rw [line_is_comment, h4]
      rw [show strOf "#" = ['#'] from by decide]
      rw [show strOf "// " = ['/', '/', ' '] from by decide]
      simp [strStarts, List.isPrefixOf]
    rw [hcom, if_neg (by simp : ¬ (false = true)), hname]
    have hsl : strStarts (strOf "/// " ++ n) (strOf "/// ") = true := by
      rw [strStarts, List.isPrefixOf_iff_prefix]
      exact List.prefix_append _ _
    show (if strStarts (strOf "/// " ++ n) (strOf "/// ") then
        some { st0 with name := some (trimStr ((strOf "/// " ++ n).drop 4)) }
      else some st0) = some { st0 with name := some (trimStr n) }
    rw [if_pos hsl]
    have hdrop : (strOf "/// " ++ n).drop 4 = n := by
      rw [h4]
      rfl
    rw [hdrop]
  rw [hmarker] at hfile2
  have hfile3 : (match templLines { st0 with name := some (trimStr n) } body with
    | none => none
    | some st => some (⟨st.scriptlets, st.aliases⟩ : Scriptlets)) = some cat := hfile2
  cases hfin : templLines { st0 with name := some (trimStr n) } body with
  | none => rw [hfin] at hfile3; exact Option.noConfusion hfile3
  | some st1 =>
    rw [hfin] at hfile3
    have hcat : cat = ⟨st1.scriptlets, st1.aliases⟩ := (Option.some.inj hfile3).symm
    have hkeep := templLines_keep body { st0 with name := some (trimStr n) } st1
      (trimStr n) rfl hbody hfin
    have hcs : cat.scriptlets = st0.scriptlets := by rw [hcat]; exact hkeep.1
    have hca : cat.aliases = st0.aliases := by rw [hcat]; exact hkeep.2
    refine ⟨hcs, hca, ?_⟩
    intro q cname hcn hlook1 hlook2 hq hjs
    rw [Scriptlets.get_scriptlet, hq]
    show (match alookup cat.scriptlets
        (match alookup cat.aliases (without_js_extension cname) with
         | some aliased => aliased
         | none => without_js_extension cname) with
      | none => some (Except.error ScriptletError.NoMatchingScriptlet)
      | some template => template.patch []) = _
    rw [hjs, hca, hlook2, hcs]
    show (match alookup st0.scriptlets cname with
      | none => some (Except.error ScriptletError.NoMatchingScriptlet)
      | some template => template.patch []) = _
    rw [hlook1]

def dataC10w : Str := strOf "/// good.js\nbody\n\n/// bad.js\nxyz"

def preC10 : List Str := [strOf "/// good.js", strOf "body", strOf ""]

def st0C10 : TemplState := (templLines initTemplState preC10).getD initTemplState

def catC10w : Scriptlets := (Scriptlets.parse_template_file dataC10w).getD ⟨[], []⟩

theorem claim_C10_witness :
    catC10w.scriptlets = st0C10.scriptlets ∧ catC10w.aliases = st0C10.aliases ∧
    catC10w.get_scriptlet (strOf "bad") =
      some (Except.error ScriptletError.NoMatchingScriptlet) ∧
    catC10w.get_scriptlet (strOf "good") = some (Except.ok (strOf "body")) := by
  have h := claim_C10 dataC10w preC10 [strOf "xyz"] (strOf "bad.js") st0C10 catC10w
    (by decide) (by decide) (by decide) (by decide) (by decide)
  exact ⟨h.1, h.2.1,
    h.2.2 (strOf "bad") (strOf "bad") (by decide) (by decide) (by decide)
      (by decide) (by decide),
    by decide⟩

def dataC10c : Str := strOf "/// a.js\nx\n\n/// a.js\ny"

def catC10c : Scriptlets := (Scriptlets.parse_template_file dataC10c).getD ⟨[], []⟩

/-- C10 counterexample: in this resources file the final resource `a.js`
(body `y`) is not followed by a blank line, so it is not registered — but an
earlier blank-line-terminated resource used the same canonical name `a`, so
`a` is present in the catalog and `get_scriptlet` on it returns Ok with the
EARLIER body `x`, not NoMatchingScriptlet as the claim states. -/
theorem claim_C10_counterexample :
    Scriptlets.parse_template_file dataC10c = some catC10c ∧
    (alookup catC10c.scriptlets (strOf "a")).isSome = true ∧
    catC10c.get_scriptlet (strOf "a") = some (Except.ok (strOf "x")) := by
  decide
